import Mathlib

/-
Shallow embedding of the Stock-Management repository (B-Manitas/Stock-Management).

The embedding models the validation / parsing / reconciliation / persistence
core of the application:

  - src/functions/utils.py      : get_month_end, is_valid_data, typecast_data
  - src/functions/mongo_api.py  : search_products (dlc range criterion),
                                  add_products, update_products
  - src/app.py                  : the save-changes reconciliation block
                                  (deleted_rows / modified_rows) and update_db
                                  (identical in body to update_products)

A pandas DataFrame is modelled column-wise: a list of (name, column) pairs,
where each column carries its dtype through its constructor (object columns
hold optional strings, datetime columns hold optional dates where the missing
value is NaT, and int64 columns hold integers and can hold no missing value,
exactly as in pandas).  Dates are plain (year, month, day) triples: every
timestamp that flows through the modelled code paths is a midnight timestamp
produced by date parsing, so the time component is irrelevant.  The MongoDB
collection is modelled as a list of typed records; update_one on a code filter
rewrites the first matching record and never inserts, delete_one removes the
first matching record.
-/

namespace StockMgmt

/-- A calendar date (pandas midnight timestamp). -/
structure Date where
  year : Nat
  month : Nat
  day : Nat
deriving DecidableEq

/-- Gregorian leap-year test, as used by the underlying datetime library. -/
def isLeap (y : Nat) : Bool :=
  y % 4 = 0 && (y % 100 ≠ 0 || y % 400 = 0)

/-- Number of days of month `m` of year `y`. -/
def daysInMonth (y m : Nat) : Nat :=
  if m = 2 then (if isLeap y then 29 else 28)
  else if m = 4 ∨ m = 6 ∨ m = 9 ∨ m = 11 then 30
  else 31

/-- Lexicographic order on dates, the order pandas uses on timestamps. -/
def dateLe (a b : Date) : Bool :=
  a.year < b.year ||
    (a.year = b.year &&
      (a.month < b.month || (a.month = b.month && a.day ≤ b.day)))

/-- `utils.get_month_end` (the branch taking an explicit timestamp):
`dlc + pd.offsets.MonthEnd(1)`.  The pandas anchored offset `MonthEnd(1)`
moves a timestamp that is not on a month end to the end of its own month,
and moves a timestamp that is already the last day of its month to the end
of the NEXT month. -/
def get_month_end (d : Date) : Date :=
  if d.day = daysInMonth d.year d.month then
    if d.month = 12 then ⟨d.year + 1, 1, 31⟩
    else ⟨d.year, d.month + 1, daysInMonth d.year (d.month + 1)⟩
  else ⟨d.year, d.month, daysInMonth d.year d.month⟩

/-- Modelled from the spec: the last day of the month of the given reference
date, which is what the spec (and the docstring of `get_month_end`) say the
upper bound of the range-variant expiry filter is. -/
def specMonthEnd (d : Date) : Date :=
  ⟨d.year, d.month, daysInMonth d.year d.month⟩

/-- The expiry criterion that `search_products` puts on the `dlc` field when a
reference date is supplied (src/functions/mongo_api.py lines 89-92):
`dlc >= filter_dlc` and `dlc <= get_month_end(filter_dlc)`. -/
def search_dlc_filter (ref dlc : Date) : Bool :=
  dateLe ref dlc && dateLe dlc (get_month_end ref)

/-- A pandas column dtype, restricted to the three dtypes of the schema. -/
inductive Dtype where
  | object
  | datetime
  | int64
deriving DecidableEq

/-- A pandas column.  An object column holds optional strings (`none` is NaN),
a datetime column holds optional dates (`none` is NaT), an int64 column holds
integers and, as in pandas, cannot hold a missing value. -/
inductive Col where
  | cStr (vs : List (Option String))
  | cDate (vs : List (Option Date))
  | cInt (vs : List Int)
deriving DecidableEq

/-- The dtype of a column. -/
def Col.dtype : Col → Dtype
  | .cStr _ => .object
  | .cDate _ => .datetime
  | .cInt _ => .int64

/-- `column.isnull().any()`: whether the column holds a missing value. -/
def Col.hasNull : Col → Bool
  | .cStr vs => vs.any (·.isNone)
  | .cDate vs => vs.any (·.isNone)
  | .cInt _ => false

/-- `series.is_unique`: whether the values of the column are pairwise
distinct (pandas counts two missing values as equal). -/
def Col.valsNodup : Col → Prop
  | .cStr vs => vs.Nodup
  | .cDate vs => vs.Nodup
  | .cInt vs => vs.Nodup

instance (c : Col) : Decidable c.valsNodup := by
  cases c <;> exact List.nodupDecidable _

/-- The integer values of a column (empty for non-int64 columns). -/
def Col.intVals : Col → List Int
  | .cInt vs => vs
  | _ => []

/-- A DataFrame: named columns in order. -/
abbrev DF : Type := List (String × Col)

/-- `df[k]` as a partial lookup: the first column named `k`. -/
def getCol? (df : DF) (k : String) : Option Col :=
  (df.find? (fun p => p.1 = k)).map (·.2)

/-- `DB_SCHEMA` from src/functions/constants.py: column name, expected dtype,
and human-readable type label, in dict insertion order. -/
def dbSchema : List (String × Dtype × String) :=
  [("code", .object, "chaîne de caractères"),
   ("designation", .object, "chaîne de caractères"),
   ("dlc", .datetime, "date"),
   ("quantite", .int64, "entier")]

/-- The canonical column names, in schema order. -/
def schemaNames : List String := ["code", "designation", "dlc", "quantite"]

/-- Error message of the column-set check. -/
def colsErrMsg : String :=
  "Erreur: Les colonnes ne sont pas valides.\n        Veuillez vérifier les colonnes suivantes: code, designation, dlc, quantite."

/-- Error message of the per-column dtype check for column `k` with label
`s`. -/
def typeErrMsg (k s : String) : String :=
  "Erreur: La colonne " ++ k ++ " doit être de type " ++ s ++ "."

/-- Error message of the non-negative-quantity check. -/
def quantErrMsg : String :=
  "Erreur: La colonne \x27quantite\x27 doit être supérieure ou égale à zéro."

/-- Error message of the unique-codes check. -/
def uniqErrMsg : String :=
  "Erreur: Les codes d\x27articles doivent être uniques."

/-- Error message of the missing-values check. -/
def nullErrMsg : String :=
  "Erreur: Les données ne doivent pas contenir de valeurs manquantes."

/-- `set(df_data.columns) == set(DB_SCHEMA.keys())`. -/
def colsMatch (df : DF) : Bool :=
  decide (∀ k ∈ schemaNames, k ∈ df.map Prod.fst) &&
    decide (∀ k ∈ df.map Prod.fst, k ∈ schemaNames)

/-- The dtype-check loop of `is_valid_data`: the error message of the first
schema column whose dtype does not match, if any. -/
def dtypeErr : List (String × Dtype × String) → DF → Option String
  | [], _ => none
  | (k, t, s) :: rest, df =>
    if (getCol? df k).map Col.dtype = some t then dtypeErr rest df
    else some (typeErrMsg k s)

/-- `(df_data["quantite"] >= 0).all()`.  The dtype check has already ensured
that the column is an int64 column when this check is reached, so the other
constructors (whose `intVals` are empty) are unreachable there and
conservatively pass, as does an all-quantifier over an empty frame. -/
def quantOk (df : DF) : Bool :=
  (Col.intVals ((getCol? df "quantite").getD (.cInt []))).all (fun q => decide (0 ≤ q))

/-- `df_data["code"].is_unique`. -/
def codeUnique (df : DF) : Bool :=
  decide (Col.valsNodup ((getCol? df "code").getD (.cStr [])))

/-- `df_data.isnull().values.any()`. -/
def hasNullAny (df : DF) : Bool :=
  df.any (fun p => p.2.hasNull)

/-- Whether some value of the `quantite` column is negative (the situation the
quantity check of the validator reports). -/
def hasNegQuant (df : DF) : Bool :=
  (Col.intVals ((getCol? df "quantite").getD (.cInt []))).any (fun q => decide (q < 0))

/-- `utils.is_valid_data` (identical in body to `app.is_valid_data`): the
whole-batch validator.  Checks run in order and short-circuit at the first
failure; the empty string is the Ok result. -/
def is_valid_data (df : DF) : String :=
  if colsMatch df = true then
    match dtypeErr dbSchema df with
    | some e => e
    | none =>
      if quantOk df = true then
        if codeUnique df = true then
          if hasNullAny df = true then nullErrMsg
          else ""
        else uniqErrMsg
      else quantErrMsg
  else colsErrMsg

/-- A fully typed article row, the shape of the rows of the search result
table (`db_filtered` / `st.session_state["db_products"]`) and of the backing
store documents. -/
structure Row where
  code : String
  designation : String
  dlc : Date
  quantite : Int
deriving DecidableEq

/-- A typed row in which the object and datetime cells may be missing, the
shape produced by the parse path before validation. -/
structure RowN where
  code : Option String
  designation : Option String
  dlc : Option Date
  quantite : Int
deriving DecidableEq

/-- Lift a fully typed row to a nullable row (all cells present). -/
def Row.toN (r : Row) : RowN :=
  ⟨some r.code, some r.designation, some r.dlc, r.quantite⟩

/-- The DataFrame holding the given nullable rows, with the canonical four
columns in schema order and dtypes object, object, datetime64, int64. -/
def toDFn (rs : List RowN) : DF :=
  [("code", .cStr (rs.map RowN.code)),
   ("designation", .cStr (rs.map RowN.designation)),
   ("dlc", .cDate (rs.map RowN.dlc)),
   ("quantite", .cInt (rs.map RowN.quantite))]

/-- The DataFrame holding the given fully typed rows. -/
def toDF (rs : List Row) : DF := toDFn (rs.map Row.toN)

/- ===== The save-changes reconciliation block (src/app.py lines 404-414) ===== -/

/-- `deleted_rows = db_filtered[~db_filtered["code"].isin(db_edited["code"])]`:
the rows of the original table whose code does not occur among the codes of
the edited table. -/
def deletedRows (orig edited : List Row) : List Row :=
  orig.filter (fun r => !(decide (r.code ∈ edited.map Row.code)))

/-- Whether two rows agree on every column other than `code` (the columns
compared by `B_common.eq(A_common)` after `set_index("code")`). -/
def rowFieldsEq (a b : Row) : Bool :=
  decide (a.designation = b.designation ∧ a.dlc = b.dlc ∧ a.quantite = b.quantite)

/-- `modified_rows = B_common[~B_common.eq(A_common).all(axis=1)].reset_index()`:
the rows of the edited table that do not coincide, on every non-code column,
with the original row carrying the same code.  Pandas aligns the comparison
on the `code` index, so an edited row whose code has no counterpart in the
original table compares unequal everywhere and is kept. -/
def modifiedRows (orig edited : List Row) : List Row :=
  edited.filter (fun e =>
    match orig.find? (fun o => decide (o.code = e.code)) with
    | some o => !(rowFieldsEq e o)
    | none => true)

/- ===== The persistence calls of update_products / update_db ===== -/

/-- `collection.update_one({"code": row["code"]}, {"$set": row})`: rewrite the
first stored record whose code equals the code of the given row; when no
record matches, nothing happens (no upsert flag, so nothing is inserted). -/
def updateOne : List Row → Row → List Row
  | [], _ => []
  | s :: rest, r => if s.code = r.code then r :: rest else s :: updateOne rest r

/-- `collection.delete_one({"code": code})`: remove the first stored record
whose code equals the given key; a `none` key is a filter value that matches
no stored record (stored records all carry a string code). -/
def deleteOne : List Row → Option String → List Row
  | [], _ => []
  | s :: rest, k => if some s.code = k then rest else s :: deleteOne rest k

/-- The update loop of `update_products`. -/
def applyUpdates (store : List Row) (rows : List Row) : List Row :=
  rows.foldl updateOne store

/-- The delete loop of `update_products`. -/
def applyDeletes (store : List Row) (keys : List (Option String)) : List Row :=
  keys.foldl deleteOne store

/-- The filter keys produced by iterating a `code` column
(`for code in deleted_rows["code"]`).  A non-string value (wrongly typed
column) can never equal the string code of a stored record, which the model
expresses by mapping it to the never-matching key `none`. -/
def colKeys : Col → List (Option String)
  | .cStr vs => vs
  | .cDate vs => vs.map (fun _ => none)
  | .cInt vs => vs.map (fun _ => none)

/-- `modified_rows.to_dict(orient="records")` followed by the per-record
field access of the update loop: reassemble the typed records of a
DataFrame.  Only reached after `is_valid_data` returned Ok, so the columns
are present with their schema dtypes and hold no missing value; the defaults
for a missing or ill-typed cell are unreachable there. -/
def rows4 : List (Option String) → List (Option String) → List (Option Date) → List Int → List Row
  | c :: cs, d :: ds, t :: ts, q :: qs =>
    ⟨c.getD "", d.getD "", t.getD ⟨1970, 1, 1⟩, q⟩ :: rows4 cs ds ts qs
  | _, _, _, _ => []

/-- The string values of an object column (defaults unreachable after
validation). -/
def colStrs : Col → List (Option String)
  | .cStr vs => vs
  | _ => []

/-- The date values of a datetime column (defaults unreachable after
validation). -/
def colDates : Col → List (Option Date)
  | .cDate vs => vs
  | _ => []

/-- The records of a validated DataFrame. -/
def dfRecords (df : DF) : List Row :=
  rows4 (colStrs ((getCol? df "code").getD (.cStr [])))
    (colStrs ((getCol? df "designation").getD (.cStr [])))
    (colDates ((getCol? df "dlc").getD (.cDate [])))
    (Col.intVals ((getCol? df "quantite").getD (.cInt [])))

/-- Error message of the catch-all handler of `update_products`. -/
def dbErrMsg : String :=
  "Erreur: Impossible de mettre à jour la base de données."

/-- `mongo_api.update_products` (identical in body to `app.update_db`):
validate the modified rows and, on success, run the update loop and then the
delete loop; return the error message and the resulting store.  A missing
`code` column on the deleted table raises after the updates already ran and
is caught by the generic handler. -/
def update_products (store : List Row) (modified deleted : DF) : String × List Row :=
  let err := is_valid_data modified
  if err = "" then
    let store1 := applyUpdates store (dfRecords modified)
    match getCol? deleted "code" with
    | some c => ("", applyDeletes store1 (colKeys c))
    | none => (dbErrMsg, store1)
  else (err, store)

/-- The whole save path of the save-changes button: reconcile the edited
table against the original table and hand the two outputs to
`update_products`. -/
def save_changes (store : List Row) (orig edited : List Row) : String × List Row :=
  update_products store (toDF (modifiedRows orig edited)) (toDF (deletedRows orig edited))

/- ===== The add-articles parse path (mongo_api.add_products) ===== -/

/-- The whitespace characters removed by the Python `str.strip()` used in the
blank-input test of `add_products` (the characters on which `str.isspace()`
holds). -/
def pyIsSpace (c : Char) : Bool :=
  c.toNat ∈ [9, 10, 11, 12, 13, 28, 29, 30, 31, 32, 133, 160, 5760,
    8192, 8193, 8194, 8195, 8196, 8197, 8198, 8199, 8200, 8201, 8202,
    8232, 8233, 8239, 8287, 12288]

/-- Split a character list on a separator character; the separator is not kept
and a trailing separator yields a trailing empty piece, as in text splitting. -/
def splitOnChar (sep : Char) : List Char → List (List Char)
  | [] => [[]]
  | a :: rest =>
    if a = sep then [] :: splitOnChar sep rest
    else
      match splitOnChar sep rest with
      | [] => [[a]]
      | f :: fs => (a :: f) :: fs

/-- Join lines with newline separators (the inverse of line splitting). -/
def joinLines : List (List Char) → List Char
  | [] => []
  | [l] => l
  | l :: ls => l ++ '\n' :: joinLines ls

/-- Decimal value of a digit string read left to right. -/
def charsVal (cs : List Char) : Nat :=
  cs.foldl (fun a c => a * 10 + (c.toNat - 48)) 0

/-- Decimal digit characters of `n`, most significant first, computed with a
structural fuel argument so that evaluation reduces in the kernel. -/
def natCharsAux : Nat → Nat → List Char
  | 0, _ => []
  | _ + 1, 0 => []
  | fuel + 1, n + 1 =>
    natCharsAux fuel ((n + 1) / 10) ++ [Nat.digitChar ((n + 1) % 10)]

/-- Decimal digit characters of a positive `n`, most significant first. -/
def natChars (n : Nat) : List Char := natCharsAux (n + 1) n

/-- Python `str(n)` for a natural number. -/
def fmtNat (n : Nat) : List Char :=
  if n = 0 then ['0'] else natChars n

/-- `strftime` two-digit zero padding (`%d`, `%m`). -/
def pad2 (n : Nat) : List Char :=
  if n < 10 then '0' :: fmtNat n else fmtNat n

/-- `strftime` four-digit zero padding (`%Y`). -/
def pad4 (n : Nat) : List Char :=
  List.replicate (4 - (fmtNat n).length) '0' ++ fmtNat n

/-- A date rendered in the documented date format `DD/MM/YYYY`
(`DATE_FORMAT` of src/functions/constants.py). -/
def fmtDate (d : Date) : List Char :=
  pad2 d.day ++ '/' :: pad2 d.month ++ '/' :: pad4 d.year

/-- Python `str(q)` for an integer quantity. -/
def fmtInt (q : Int) : List Char :=
  if q < 0 then '-' :: fmtNat (-q).toNat else fmtNat q.toNat

/-- One row rendered as a comma-separated record in canonical column order. -/
def serializeRow (r : Row) : List Char :=
  r.code.toList ++ ',' :: r.designation.toList ++ ',' :: fmtDate r.dlc ++ ',' :: fmtInt r.quantite

/-- A row set rendered as the freeform add-articles text: one comma-separated
record per line. -/
def serialize (rows : List Row) : List Char :=
  joinLines (rows.map serializeRow)

/-- `serialize` as a string. -/
def serializeStr (rows : List Row) : String :=
  String.mk (serialize rows)

/-- The default NA tokens of `pd.read_csv`: a field equal to one of these is
read as missing even under `dtype=str`. -/
def naValues : List (List Char) :=
  [[], "#N/A".toList, "#N/A N/A".toList, "#NA".toList, "-1.#IND".toList,
   "-1.#QNAN".toList, "-NaN".toList, "-nan".toList, "1.#IND".toList,
   "1.#QNAN".toList, "<NA>".toList, "N/A".toList, "NA".toList, "NULL".toList,
   "NaN".toList, "None".toList, "n/a".toList, "nan".toList, "null".toList]

/-- NA detection of `pd.read_csv` on one field. -/
def naFilter (f : List Char) : Option (List Char) :=
  if f ∈ naValues then none else some f

/-- Parse an unsigned decimal field (digit characters only). -/
def parseNat (cs : List Char) : Option Nat :=
  if cs = [] then none
  else if cs.all Char.isDigit then some (charsVal cs)
  else none

/-- A date from year, month and day, if they form a calendar date. -/
def mkDate (y m d : Nat) : Option Date :=
  if 1 ≤ m ∧ m ≤ 12 ∧ 1 ≤ d ∧ d ≤ daysInMonth y m then some ⟨y, m, d⟩
  else none

/-- The dateutil resolution of a slash-separated numeric date `a/b/y` used by
the datetime cast of `typecast_data`: the first number is read as the month
when it can be one, otherwise the day-first reading is used. -/
def dateutilResolve (a b y : Nat) : Option Date :=
  if 1 ≤ a ∧ a ≤ 12 then mkDate y a b
  else mkDate y b a

/-- The per-value datetime conversion behind
`df["dlc"].astype("datetime64[ns]")` on the slash-separated numeric form the
documented date format produces; any other shape fails the cast. -/
def parseDlc (cs : List Char) : Option Date :=
  match splitOnChar '/' cs with
  | [a, b, y] => do
    let na ← parseNat a
    let nb ← parseNat b
    let ny ← parseNat y
    dateutilResolve na nb ny
  | _ => none

/-- Python `int(s)` on a decimal field with an optional leading minus sign. -/
def parseIntField (cs : List Char) : Option Int :=
  match cs with
  | [] => none
  | c :: rest =>
    if c = '-' then (parseNat rest).map (fun n => -(n : Int))
    else (parseNat (c :: rest)).map (fun n => (n : Int))

/-- The datetime cast of one `dlc` cell: a missing field becomes NaT, an
unparseable field raises (propagated as `none`). -/
def castDlc : Option (List Char) → Option (Option Date)
  | none => some none
  | some cs => (parseDlc cs).map some

/-- The int cast of one `quantite` cell: a missing field raises, as does a
non-integer field. -/
def castQuant : Option (List Char) → Option Int
  | none => none
  | some cs => parseIntField cs

/-- `typecast_data` on one record of four raw fields (a record with a
different field count cannot be mapped onto the schema). -/
def typecast_row : List (Option (List Char)) → Option RowN
  | [c, dsg, t, q] => do
    let dlc ← castDlc t
    let qv ← castQuant q
    some ⟨c.map String.mk, dsg.map String.mk, dlc, qv⟩
  | _ => none

/-- All-or-nothing traversal: the first failing conversion aborts the whole
batch, as the exception handler of `add_products` does. -/
def optMapList (f : α → Option β) : List α → Option (List β)
  | [] => some []
  | a :: l => do
    let b ← f a
    let bs ← optMapList f l
    some (b :: bs)

/-- `pd.read_csv(StringIO(articles), header=None, names=DB_SCHEMA, dtype=str)`
followed by `typecast_data`: split the text into non-blank lines (blank lines
are skipped), split each line into comma-separated fields, apply NA
detection, and typecast each record. -/
def parse_articles (cs : List Char) : Option (List RowN) :=
  let lines := (splitOnChar '\n' cs).filter (fun l => decide (l ≠ []))
  optMapList (fun l => typecast_row ((splitOnChar ',' l).map naFilter)) lines

/-- The dedicated prompt of the blank-input case of `add_products`. -/
def emptyInputMsg : String :=
  "Veuillez saisir au moins un article à ajouter."

/-- The generic example-based help message of the catch-all handler of
`mongo_api.add_products`, with `DATE_FORMAT` interpolated. -/
def parseHelpMsg : String :=
  "\n        Les données saisies ne sont pas valides. Veuillez vérifier les points suivants:\n\n        - Les données doivent être séparées par des virgules et inclure les colonnes suivantes:\n        code, designation, dlc, quantite.\n\n\n        - Les dates doivent être valides et au format \x27DD/MM/YYYY\x27.\n\n\n        - Les quantités doivent être des entiers positifs.\n\n\n        - Les codes d\x27articles doivent être uniques.\n\n\n        - Les données ne doivent pas contenir de valeurs manquantes.\n\n\n        - Exemple:\n            - 001,Article 1,31/12/2022,10\n            - 002,Article 2,15/01/2023,20\n            - 003,Article 3,26/02/2023,30\n\n        "

/-- `mongo_api.add_products` without the external collection insert: blank
input gets the dedicated prompt; a parse or validation failure gets the
generic help message; otherwise the typed rows are returned with no error. -/
def add_products (articles : String) : Option (List RowN) × String :=
  if articles.toList.all pyIsSpace then (none, emptyInputMsg)
  else
    match parse_articles articles.toList with
    | none => (none, parseHelpMsg)
    | some rows =>
      if is_valid_data (toDFn rows) = "" then (some rows, "")
      else (none, parseHelpMsg)

/-- A calendar-date well-formedness predicate together with the bounds of the
`datetime64[ns]` timestamps every date of a real DataFrame satisfies. -/
def Date.wf (d : Date) : Prop :=
  1 ≤ d.month ∧ d.month ≤ 12 ∧ 1 ≤ d.day ∧ d.day ≤ daysInMonth d.year d.month ∧
    1678 ≤ d.year ∧ d.year ≤ 2261

/-- A date whose `DD/MM/YYYY` rendering is read back unchanged by the
dateutil resolution: the day cannot be mistaken for a month, or day and month
coincide. -/
def dateutilSafe (d : Date) : Prop :=
  12 < d.day ∨ d.day = d.month

/-- A text field that survives the CSV round trip: non-empty, not an NA
token, and free of the separator and quoting characters. -/
def goodField (s : String) : Prop :=
  s.toList ≠ [] ∧ s.toList ∉ naValues ∧
    ∀ c ∈ s.toList, c ≠ ',' ∧ c ≠ '\n' ∧ c ≠ '\r' ∧ c ≠ '"'

instance (s : String) : Decidable (goodField s) :=
  inferInstanceAs (Decidable (s.toList ≠ [] ∧ s.toList ∉ naValues ∧
    ∀ c ∈ s.toList, c ≠ ',' ∧ c ≠ '\n' ∧ c ≠ '\r' ∧ c ≠ '"'))

instance (d : Date) : Decidable d.wf :=
  inferInstanceAs (Decidable (1 ≤ d.month ∧ d.month ≤ 12 ∧ 1 ≤ d.day ∧
    d.day ≤ daysInMonth d.year d.month ∧ 1678 ≤ d.year ∧ d.year ≤ 2261))

instance (d : Date) : Decidable (dateutilSafe d) :=
  inferInstanceAs (Decidable (12 < d.day ∨ d.day = d.month))

/- ===== Helper lemmas ===== -/

theorem quantOk_eq_false_of_neg (df : DF) (h : hasNegQuant df = true) :
    quantOk df = false := by
  unfold hasNegQuant at h
  unfold quantOk
  obtain ⟨q, hq, hlt⟩ := List.any_eq_true.mp h
  rw [List.all_eq_false]
  exact ⟨q, hq, by simpa using of_decide_eq_true hlt⟩

theorem updateOne_map_code (s : List Row) (r : Row) :
    (updateOne s r).map Row.code = s.map Row.code := by
  induction s with
  | nil => rfl
  | cons a l ih =>
    unfold updateOne
    by_cases h : a.code = r.code
    · simp [h]
    · simp [h, ih]

theorem applyUpdates_map_code (rows : List Row) :
    ∀ s : List Row, (applyUpdates s rows).map Row.code = s.map Row.code := by
  induction rows with
  | nil => intro s; rfl
  | cons r rest ih =>
    intro s
    show (applyUpdates (updateOne s r) rest).map Row.code = s.map Row.code
    rw [ih, updateOne_map_code]

theorem deleteOne_sublist (s : List Row) (k : Option String) :
    List.Sublist (deleteOne s k) s := by
  induction s with
  | nil => simp [deleteOne]
  | cons a l ih =>
    unfold deleteOne
    by_cases h : some a.code = k
    · simp [h]
    · simp only [h, if_false]
      exact ih.cons₂ a

theorem applyDeletes_sublist (keys : List (Option String)) :
    ∀ s : List Row, List.Sublist (applyDeletes s keys) s := by
  induction keys with
  | nil => intro s; exact List.Sublist.refl s
  | cons k rest ih =>
    intro s
    show List.Sublist (applyDeletes (deleteOne s k) rest) s
    exact (ih _).trans (deleteOne_sublist s k)

theorem update_products_codes_subset (store : List Row) (modified deleted : DF) :
    ∀ k ∈ ((update_products store modified deleted).2.map Row.code),
      k ∈ store.map Row.code := by
  intro k hk
  unfold update_products at hk
  by_cases hv : is_valid_data modified = ""
  · rw [if_pos hv] at hk
    cases hcol : getCol? deleted "code" with
    | some c =>
      rw [hcol] at hk
      simp only at hk
      have hsub := (applyDeletes_sublist (colKeys c)
        (applyUpdates store (dfRecords modified))).map Row.code
      have := hsub.subset hk
      rwa [applyUpdates_map_code] at this
    | none =>
      rw [hcol] at hk
      simp only at hk
      rwa [applyUpdates_map_code] at hk
  · rw [if_neg hv] at hk
    exact hk

/-- The dtype the schema expects for a given canonical column name. -/
def expectedDtype (k : String) : Dtype :=
  if k = "dlc" then .datetime
  else if k = "quantite" then .int64
  else .object

theorem typeErrMsg_ne_empty (k s : String) : typeErrMsg k s ≠ "" := by
  intro h
  unfold typeErrMsg at h
  have hlen := congrArg String.length h
  rw [String.length_append, String.length_append, String.length_append] at hlen
  have h1 : ("Erreur: La colonne " : String).length = 19 := by decide
  have h2 : ("." : String).length = 1 := by decide
  have h3 : ("" : String).length = 0 := by decide
  omega

theorem dtypeErr_ne_empty :
    ∀ (sch : List (String × Dtype × String)) (df : DF) (e : String),
      dtypeErr sch df = some e → e ≠ "" := by
  intro sch
  induction sch with
  | nil => intro df e h; simp [dtypeErr] at h
  | cons p rest ih =>
    intro df e h
    obtain ⟨k, t, s⟩ := p
    unfold dtypeErr at h
    by_cases hc : (getCol? df k).map Col.dtype = some t
    · rw [if_pos hc] at h
      exact ih df e h
    · rw [if_neg hc] at h
      have : typeErrMsg k s = e := by simpa using h
      rw [← this]
      exact typeErrMsg_ne_empty k s

/-- The Ok result of the validator means every single check passed. -/
theorem valid_parts (df : DF) (h : is_valid_data df = "") :
    colsMatch df = true ∧ dtypeErr dbSchema df = none ∧ quantOk df = true ∧
      codeUnique df = true ∧ hasNullAny df = false := by
  unfold is_valid_data at h
  by_cases h1 : colsMatch df = true
  case neg =>
    rw [if_neg h1] at h
    exact absurd h (by decide)
  rw [if_pos h1] at h
  cases h2 : dtypeErr dbSchema df with
  | some e =>
    rw [h2] at h
    exact absurd h (dtypeErr_ne_empty dbSchema df e h2)
  | none =>
    rw [h2] at h
    by_cases h3 : quantOk df = true
    case neg =>
      rw [if_neg h3] at h
      exact absurd h (by decide)
    rw [if_pos h3] at h
    by_cases h4 : codeUnique df = true
    case neg =>
      rw [if_neg h4] at h
      exact absurd h (by decide)
    rw [if_pos h4] at h
    by_cases h5 : hasNullAny df = true
    · rw [if_pos h5] at h
      exact absurd h (by decide)
    · exact ⟨h1, rfl, h3, h4, by simpa using h5⟩

/-- A column name present in the frame is found by the lookup, with its
column a member of the frame. -/
theorem getCol?_mem (df : DF) (k : String) (h : k ∈ df.map Prod.fst) :
    ∃ c, getCol? df k = some c ∧ (k, c) ∈ df := by
  obtain ⟨p, hp, hpk⟩ := List.mem_map.mp h
  have hex : ∃ q, q ∈ df ∧ (fun q : String × Col => decide (q.1 = k)) q = true :=
    ⟨p, hp, by simp [hpk]⟩
  have hsome := List.find?_isSome.mpr hex
  cases hf : df.find? (fun q => decide (q.1 = k)) with
  | none => rw [hf] at hsome; simp at hsome
  | some q =>
    obtain ⟨a, c⟩ := q
    have hak : a = k := by simpa using List.find?_some hf
    subst hak
    exact ⟨c, by simp [getCol?, hf], List.mem_of_find?_eq_some hf⟩

/- ===== Claim theorems ===== -/

/-- Claim C1.  The range-variant expiry criterion of `search_products` is
claimed to keep a row if and only if its expiry lies in the inclusive
interval from the reference date to the last day of the month of the
reference date.  This fails when the reference date is itself the last day
of its month: `get_month_end` then produces the end of the NEXT month, so
the criterion keeps a row whose expiry lies in the following month, although
the docstring of `get_month_end` promises the last day of the month of its
argument.  Evaluated at reference date 2023-01-31 and stored expiry
2023-02-15: the code keeps the row while the claimed interval (whose upper
bound is `specMonthEnd`, the last day of the month of the reference date)
rejects it. -/
theorem C1_month_end_expiry_bug :
    search_dlc_filter ⟨2023, 1, 31⟩ ⟨2023, 2, 15⟩ = true ∧
      get_month_end ⟨2023, 1, 31⟩ = ⟨2023, 2, 28⟩ ∧
      specMonthEnd ⟨2023, 1, 31⟩ = ⟨2023, 1, 31⟩ ∧
      dateLe ⟨2023, 2, 15⟩ (specMonthEnd ⟨2023, 1, 31⟩) = false := by
  decide

/-- Claim C2, counterexample.  A row set with a negative quantity does NOT
always get the quantity-specific error: the validator short-circuits, so a
row set that at the same time is missing the `designation` column gets the
column-set error instead. -/
theorem C2_cex_negative_quantity_not_reported :
    hasNegQuant
        [("code", Col.cStr [some "001"]),
         ("dlc", Col.cDate [some ⟨2023, 1, 1⟩]),
         ("quantite", Col.cInt [-5])] = true ∧
      is_valid_data
        [("code", Col.cStr [some "001"]),
         ("dlc", Col.cDate [some ⟨2023, 1, 1⟩]),
         ("quantite", Col.cInt [-5])] ≠ quantErrMsg := by
  decide

/-- Claim C2, amended.  For every row set that passes the column-set check
and the dtype check and whose `quantite` column holds a negative value,
`is_valid_data` returns the quantity-specific error, regardless of duplicate
codes or missing values (the two checks that run after the quantity
check). -/
theorem C2_negative_quantity_error (df : DF)
    (hc : colsMatch df = true)
    (ht : dtypeErr dbSchema df = none)
    (hneg : hasNegQuant df = true) :
    is_valid_data df = quantErrMsg := by
  unfold is_valid_data
  rw [hc, ht, if_pos rfl, quantOk_eq_false_of_neg df hneg]
  simp

/-- Witness for C2: a row set with a negative quantity, a duplicated code and
a missing designation value still gets the quantity-specific error. -/
theorem C2_negative_quantity_error_witness :
    is_valid_data
        [("code", Col.cStr [some "a", some "a"]),
         ("designation", Col.cStr [some "x", none]),
         ("dlc", Col.cDate [some ⟨2023, 1, 1⟩, some ⟨2023, 1, 2⟩]),
         ("quantite", Col.cInt [-1, 2])] = quantErrMsg :=
  C2_negative_quantity_error _ (by decide) (by decide) (by decide)

/-- Claim C7.  When the modified rows fail validation, `update_products`
returns exactly the validation error message and leaves the store untouched:
no update and no deletion is applied. -/
theorem C7_validation_failure_no_persistence (store : List Row) (modified deleted : DF)
    (h : is_valid_data modified ≠ "") :
    update_products store modified deleted = (is_valid_data modified, store) := by
  unfold update_products
  simp [h]

/-- Witness for C7: a modified table missing three schema columns aborts the
save and leaves a one-row store unchanged. -/
theorem C7_validation_failure_no_persistence_witness :
    is_valid_data [("code", Col.cStr [some "1"])] ≠ "" ∧
      update_products [⟨"1", "a", ⟨2023, 1, 1⟩, 1⟩]
          [("code", Col.cStr [some "1"])] [] =
        (is_valid_data [("code", Col.cStr [some "1"])],
          [⟨"1", "a", ⟨2023, 1, 1⟩, 1⟩]) :=
  ⟨by decide, C7_validation_failure_no_persistence _ _ _ (by decide)⟩

/-- Claim C8.  An input that is empty or consists only of whitespace makes
`add_products` return no rows together with the dedicated prompt, and that
prompt is distinct from the generic malformed-input help message. -/
theorem C8_blank_input_prompt (s : String) (h : s.toList.all pyIsSpace = true) :
    add_products s = (none, emptyInputMsg) ∧ emptyInputMsg ≠ parseHelpMsg := by
  refine ⟨?_, by decide⟩
  unfold add_products
  rw [h]
  simp

/-- Witness for C8 at the whitespace-only input of a blank, a tab and a
newline. -/
theorem C8_blank_input_prompt_witness :
    add_products " \t\n" = (none, emptyInputMsg) ∧ emptyInputMsg ≠ parseHelpMsg :=
  C8_blank_input_prompt " \t\n" (by decide)

/-- Claim C10.  On the save path only the modified rows pass through the
validator: whenever the modified table validates, the deletions of the codes
of the deleted table are applied even when the deleted table itself would
fail validation. -/
theorem C10_deleted_rows_not_validated (store : List Row) (modified deleted : DF)
    (c : Col)
    (hm : is_valid_data modified = "")
    (hd : getCol? deleted "code" = some c)
    (hbad : is_valid_data deleted ≠ "") :
    update_products store modified deleted =
      ("", applyDeletes (applyUpdates store (dfRecords modified)) (colKeys c)) := by
  unfold update_products
  rw [hm]
  simp [hd]

/-- Witness for C10: an empty (hence valid) modified table and a deleted
table with a wrong column set and a negative quantity; the deletion of code
1 is applied and empties the store. -/
theorem C10_deleted_rows_not_validated_witness :
    is_valid_data (toDF []) = "" ∧
      is_valid_data [("code", Col.cStr [some "1"]), ("quantite", Col.cInt [-5])] ≠ "" ∧
      update_products [⟨"1", "a", ⟨2023, 1, 1⟩, 1⟩] (toDF [])
          [("code", Col.cStr [some "1"]), ("quantite", Col.cInt [-5])] = ("", []) :=
  ⟨by decide, by decide, by
    rw [C10_deleted_rows_not_validated _ _ _ (Col.cStr [some "1"])
      (by decide) (by decide) (by decide)]
    decide⟩

/-- Claim C6.  For an edited table holding a code that occurs neither in the
original table nor in the backing store, the save path (reconciliation
followed by the update and delete loops) never inserts that code: the set of
stored codes after the save holds no code it did not hold before, because
`update_one` on a code filter only rewrites an existing record. -/
theorem C6_save_never_inserts (store orig edited : List Row) (c : String)
    (hnew : c ∈ edited.map Row.code)
    (hnorig : c ∉ orig.map Row.code)
    (hnstore : c ∉ store.map Row.code) :
    c ∉ ((save_changes store orig edited).2.map Row.code) ∧
      ∀ k ∈ ((save_changes store orig edited).2.map Row.code),
        k ∈ store.map Row.code := by
  have key : ∀ k ∈ ((save_changes store orig edited).2.map Row.code),
      k ∈ store.map Row.code := by
    intro k hk
    exact update_products_codes_subset store _ _ k hk
  exact ⟨fun hmem => hnstore (key c hmem), key⟩

/-- Witness for C6: editing a brand-new row with code 9 into a one-row table
does not put code 9 into the store. -/
theorem C6_save_never_inserts_witness :
    "9" ∉ ((save_changes [⟨"1", "a", ⟨2023, 1, 1⟩, 1⟩]
        [⟨"1", "a", ⟨2023, 1, 1⟩, 1⟩]
        [⟨"1", "a", ⟨2023, 1, 1⟩, 1⟩, ⟨"9", "z", ⟨2023, 1, 2⟩, 3⟩]).2.map Row.code) ∧
      ∀ k ∈ ((save_changes [⟨"1", "a", ⟨2023, 1, 1⟩, 1⟩]
          [⟨"1", "a", ⟨2023, 1, 1⟩, 1⟩]
          [⟨"1", "a", ⟨2023, 1, 1⟩, 1⟩, ⟨"9", "z", ⟨2023, 1, 2⟩, 3⟩]).2.map Row.code),
        k ∈ ([⟨"1", "a", ⟨2023, 1, 1⟩, 1⟩] : List Row).map Row.code :=
  C6_save_never_inserts _ _ _ "9" (by decide) (by decide) (by decide)

/-- Claim C3.  A row set with exactly the four canonical columns, the
expected dtypes, only non-negative quantities, pairwise distinct codes and
no missing value validates with the Ok result (the empty error string). -/
theorem C3_valid_data_ok (df : DF)
    (hcols : (df.map Prod.fst).Perm schemaNames)
    (htype : ∀ p ∈ df, Col.dtype p.2 = expectedDtype p.1)
    (hq : ∀ p ∈ df, p.1 = "quantite" → ∀ q ∈ Col.intVals p.2, 0 ≤ q)
    (hu : ∀ p ∈ df, p.1 = "code" → Col.valsNodup p.2)
    (hn : ∀ p ∈ df, Col.hasNull p.2 = false) :
    is_valid_data df = "" := by
  have hname : ∀ k ∈ schemaNames, ∃ c, getCol? df k = some c ∧ (k, c) ∈ df :=
    fun k hk => getCol?_mem df k (hcols.mem_iff.mpr hk)
  have h1 : colsMatch df = true := by
    unfold colsMatch
    rw [Bool.and_eq_true, decide_eq_true_iff, decide_eq_true_iff]
    exact ⟨fun k hk => hcols.mem_iff.mpr hk, fun k hk => hcols.mem_iff.mp hk⟩
  have hstep : ∀ k ∈ schemaNames,
      (getCol? df k).map Col.dtype = some (expectedDtype k) := by
    intro k hk
    obtain ⟨c, hc, hmem⟩ := hname k hk
    rw [hc]
    simpa using htype (k, c) hmem
  have h2 : dtypeErr dbSchema df = none := by
    have e1 := hstep "code" (by decide)
    have e2 := hstep "designation" (by decide)
    have e3 := hstep "dlc" (by decide)
    have e4 := hstep "quantite" (by decide)
    unfold expectedDtype at e1 e2 e3 e4
    simp only [reduceIte] at e1 e2 e3 e4
    simp [dtypeErr, dbSchema, e1, e2, e3, e4]
  have h3 : quantOk df = true := by
    obtain ⟨c, hc, hmem⟩ := hname "quantite" (by decide)
    unfold quantOk
    rw [hc]
    rw [List.all_eq_true]
    intro q hqv
    exact decide_eq_true (hq (("quantite", c)) hmem rfl q hqv)
  have h4 : codeUnique df = true := by
    obtain ⟨c, hc, hmem⟩ := hname "code" (by decide)
    unfold codeUnique
    rw [hc]
    exact decide_eq_true (hu (("code", c)) hmem rfl)
  have h5 : hasNullAny df = false := by
    unfold hasNullAny
    rw [List.any_eq_false]
    intro p hp
    simp [hn p hp]
  unfold is_valid_data
  rw [h1, h2, if_pos rfl, h3, h4, if_pos rfl, if_pos rfl, h5]
  simp

/-- Witness for C3: a concrete two-row table with the canonical shape
validates Ok. -/
theorem C3_valid_data_ok_witness :
    is_valid_data (toDF [⟨"001", "Widget", ⟨2025, 3, 15⟩, 10⟩,
        ⟨"002", "Gadget", ⟨2025, 4, 1⟩, 5⟩]) = "" :=
  C3_valid_data_ok _ (by decide) (by decide) (by decide) (by decide) (by decide)

theorem getCol?_toDF_code (rs : List Row) :
    getCol? (toDF rs) "code" = some (.cStr (rs.map (fun r => some r.code))) := by
  simp [toDF, toDFn, getCol?, List.find?_cons, Row.toN, List.map_map, Function.comp]

theorem codes_nodup_of_valid (rs : List Row) (h : is_valid_data (toDF rs) = "") :
    (rs.map Row.code).Nodup := by
  have hu := (valid_parts _ h).2.2.2.1
  unfold codeUnique at hu
  rw [getCol?_toDF_code] at hu
  have hnd : (rs.map (fun r => some r.code)).Nodup := by
    have := of_decide_eq_true hu
    simpa [Col.valsNodup] using this
  have : (List.map some (rs.map Row.code)).Nodup := by
    rw [List.map_map]
    exact hnd
  exact this.of_map some

theorem find?_eq_self_of_nodup (l : List Row) (e : Row)
    (hnd : (l.map Row.code).Nodup) (he : e ∈ l) :
    l.find? (fun o => decide (o.code = e.code)) = some e := by
  induction l with
  | nil => cases he
  | cons a t ih =>
    rw [List.map_cons, List.nodup_cons] at hnd
    obtain ⟨ha, ht⟩ := hnd
    rcases List.mem_cons.mp he with rfl | he2
    · simp [List.find?_cons]
    · have hne : a.code ≠ e.code := by
        intro hc
        exact ha (hc ▸ List.mem_map_of_mem Row.code he2)
      rw [List.find?_cons, decide_eq_false hne]
      exact ih ht he2

/-- Claim C5.  Reconciling a valid table against an identical edited table
produces an empty modified set and an empty deleted set. -/
theorem C5_reconcile_identity (orig : List Row)
    (h : is_valid_data (toDF orig) = "") :
    modifiedRows orig orig = [] ∧ deletedRows orig orig = [] := by
  have hnd := codes_nodup_of_valid orig h
  constructor
  · unfold modifiedRows
    rw [List.filter_eq_nil_iff]
    intro e he
    rw [find?_eq_self_of_nodup orig e hnd he]
    simp [rowFieldsEq]
  · unfold deletedRows
    rw [List.filter_eq_nil_iff]
    intro r hr
    simp [List.mem_map_of_mem Row.code hr]

/-- Witness for C5 on a concrete two-row table. -/
theorem C5_reconcile_identity_witness :
    modifiedRows [⟨"001", "Widget", ⟨2025, 3, 15⟩, 10⟩, ⟨"002", "Gadget", ⟨2025, 4, 1⟩, 5⟩]
        [⟨"001", "Widget", ⟨2025, 3, 15⟩, 10⟩, ⟨"002", "Gadget", ⟨2025, 4, 1⟩, 5⟩] = [] ∧
      deletedRows [⟨"001", "Widget", ⟨2025, 3, 15⟩, 10⟩, ⟨"002", "Gadget", ⟨2025, 4, 1⟩, 5⟩]
        [⟨"001", "Widget", ⟨2025, 3, 15⟩, 10⟩, ⟨"002", "Gadget", ⟨2025, 4, 1⟩, 5⟩] = [] :=
  C5_reconcile_identity _ (by decide)

/-- Claim C4.  Removing exactly one row from a valid original table makes the
reconciliation place exactly that row in the deleted set and nothing in the
modified set. -/
theorem C4_remove_one_row (t d : List Row) (m : Row)
    (h : is_valid_data (toDF (t ++ m :: d)) = "") :
    deletedRows (t ++ m :: d) (t ++ d) = [m] ∧
      modifiedRows (t ++ m :: d) (t ++ d) = [] := by
  have hnd := codes_nodup_of_valid _ h
  rw [List.map_append, List.map_cons] at hnd
  rw [List.nodup_append] at hnd
  obtain ⟨hndt, hndmd, hdisj⟩ := hnd
  have hmt : m.code ∉ t.map Row.code := fun hm => hdisj hm (List.mem_cons_self _ _)
  have hmd : m.code ∉ d.map Row.code := (List.nodup_cons.mp hndmd).1
  constructor
  · unfold deletedRows
    rw [List.filter_append]
    have hT : t.filter
        (fun r => !(decide (r.code ∈ (t ++ d).map Row.code))) = [] := by
      rw [List.filter_eq_nil_iff]
      intro r hr
      simp [List.map_append, List.mem_map_of_mem Row.code hr]
    have hD : d.filter
        (fun r => !(decide (r.code ∈ (t ++ d).map Row.code))) = [] := by
      rw [List.filter_eq_nil_iff]
      intro r hr
      simp [List.map_append, List.mem_map_of_mem Row.code hr]
    have hM : (!(decide (m.code ∈ (t ++ d).map Row.code))) = true := by
      rw [List.map_append]
      simp only [Bool.not_eq_true', decide_eq_false_iff_not, List.mem_append]
      rintro (hc | hc)
      · exact hmt hc
      · exact hmd hc
    rw [hT, List.filter_cons, hM, hD]
    simp
  · unfold modifiedRows
    rw [List.filter_eq_nil_iff]
    intro e he
    have heo : e ∈ t ++ m :: d := by
      rcases List.mem_append.mp he with h1 | h1
      · exact List.mem_append.mpr (Or.inl h1)
      · exact List.mem_append.mpr (Or.inr (List.mem_cons_of_mem m h1))
    have hndfull : ((t ++ m :: d).map Row.code).Nodup := codes_nodup_of_valid _ h
    rw [find?_eq_self_of_nodup _ e hndfull heo]
    simp [rowFieldsEq]

/-- Witness for C4: removing the middle row of a concrete three-row table. -/
theorem C4_remove_one_row_witness :
    deletedRows
        [⟨"001", "Widget", ⟨2025, 3, 15⟩, 10⟩, ⟨"002", "Gadget", ⟨2025, 4, 1⟩, 5⟩,
          ⟨"003", "Gizmo", ⟨2025, 5, 2⟩, 7⟩]
        ([⟨"001", "Widget", ⟨2025, 3, 15⟩, 10⟩] ++ [⟨"003", "Gizmo", ⟨2025, 5, 2⟩, 7⟩]) =
      [⟨"002", "Gadget", ⟨2025, 4, 1⟩, 5⟩] ∧
      modifiedRows
        [⟨"001", "Widget", ⟨2025, 3, 15⟩, 10⟩, ⟨"002", "Gadget", ⟨2025, 4, 1⟩, 5⟩,
          ⟨"003", "Gizmo", ⟨2025, 5, 2⟩, 7⟩]
        ([⟨"001", "Widget", ⟨2025, 3, 15⟩, 10⟩] ++ [⟨"003", "Gizmo", ⟨2025, 5, 2⟩, 7⟩]) = [] :=
  C4_remove_one_row [⟨"001", "Widget", ⟨2025, 3, 15⟩, 10⟩]
    [⟨"003", "Gizmo", ⟨2025, 5, 2⟩, 7⟩] ⟨"002", "Gadget", ⟨2025, 4, 1⟩, 5⟩ (by decide)

/-- Claim C9, counterexample.  The round trip fails on the valid one-row set
with expiry 2023-04-05: its serialization in the documented `DD/MM/YYYY`
format is `001,Article,05/04/2023,10`, and the datetime cast reads `05/04`
month-first (the dateutil default used by `astype`), yielding 2023-05-04
instead of 2023-04-05; the parsed row set differs from the original. -/
theorem C9_cex_roundtrip_swaps_date :
    is_valid_data (toDF [⟨"001", "Article", ⟨2023, 4, 5⟩, 10⟩]) = "" ∧
      serializeStr [⟨"001", "Article", ⟨2023, 4, 5⟩, 10⟩] = "001,Article,05/04/2023,10" ∧
      add_products (serializeStr [⟨"001", "Article", ⟨2023, 4, 5⟩, 10⟩]) =
        (some [⟨some "001", some "Article", some ⟨2023, 5, 4⟩, 10⟩], "") ∧
      (some [⟨some "001", some "Article", some ⟨2023, 5, 4⟩, 10⟩], ("" : String)) ≠
        (some (([⟨"001", "Article", ⟨2023, 4, 5⟩, 10⟩] : List Row).map Row.toN), "") := by
  decide

/- ===== Round-trip lemmas for the amended C9 ===== -/

theorem digitChar_isDigit : ∀ d, d < 10 → (Nat.digitChar d).isDigit = true := by
  decide

theorem digitChar_val : ∀ d, d < 10 → (Nat.digitChar d).toNat - 48 = d := by
  decide

theorem natCharsAux_digits :
    ∀ fuel n, ∀ c ∈ natCharsAux fuel n, c.isDigit = true := by
  intro fuel
  induction fuel with
  | zero => intro n c hc; simp [natCharsAux] at hc
  | succ f ih =>
    intro n c hc
    cases n with
    | zero => simp [natCharsAux] at hc
    | succ m =>
      rcases List.mem_append.mp hc with h | h
      · exact ih _ c h
      · have : c = Nat.digitChar ((m + 1) % 10) := by simpa using h
        subst this
        exact digitChar_isDigit _ (Nat.mod_lt _ (by norm_num))

theorem natCharsAux_val :
    ∀ fuel, ∀ n < fuel, ∀ a : Nat,
      List.foldl (fun x c => x * 10 + (c.toNat - 48)) a (natCharsAux fuel n) =
        a * 10 ^ (natCharsAux fuel n).length + n := by
  intro fuel
  induction fuel with
  | zero => intro n hn; omega
  | succ f ih =>
    intro n hn a
    cases n with
    | zero => simp [natCharsAux]
    | succ m =>
      have hq : (m + 1) / 10 < f := by omega
      have hstep : natCharsAux (f + 1) (m + 1) =
          natCharsAux f ((m + 1) / 10) ++ [Nat.digitChar ((m + 1) % 10)] := rfl
      rw [hstep, List.foldl_append]
      simp only [List.foldl_cons, List.foldl_nil]
      rw [ih _ hq a]
      rw [digitChar_val _ (Nat.mod_lt _ (by norm_num))]
      rw [List.length_append, List.length_cons, List.length_nil]
      have hdm : (m + 1) / 10 * 10 + (m + 1) % 10 = m + 1 := by omega
      calc (a * 10 ^ (natCharsAux f ((m + 1) / 10)).length + (m + 1) / 10) * 10 +
            (m + 1) % 10
          = a * (10 ^ (natCharsAux f ((m + 1) / 10)).length * 10) +
            ((m + 1) / 10 * 10 + (m + 1) % 10) := by ring
        _ = a * 10 ^ ((natCharsAux f ((m + 1) / 10)).length + 1) + (m + 1) := by
            rw [pow_succ, hdm]

theorem charsVal_natChars (n : Nat) : charsVal (natChars n) = n := by
  unfold charsVal natChars
  rw [natCharsAux_val (n + 1) n (Nat.lt_succ_self n) 0]
  simp

theorem natChars_ne_nil (m : Nat) : natChars (m + 1) ≠ [] := by
  show natCharsAux (m + 1) ((m + 1) / 10) ++ [Nat.digitChar ((m + 1) % 10)] ≠ []
  simp

theorem fmtNat_ne_nil (n : Nat) : fmtNat n ≠ [] := by
  unfold fmtNat
  cases n with
  | zero => simp
  | succ m =>
    rw [if_neg (by omega)]
    exact natChars_ne_nil m

theorem fmtNat_digits (n : Nat) : ∀ c ∈ fmtNat n, c.isDigit = true := by
  unfold fmtNat
  cases n with
  | zero => intro c hc; simp at hc; subst hc; decide
  | succ m =>
    rw [if_neg (by omega)]
    exact natCharsAux_digits _ _

theorem charsVal_fmtNat (n : Nat) : charsVal (fmtNat n) = n := by
  unfold fmtNat
  cases n with
  | zero => decide
  | succ m =>
    rw [if_neg (by omega)]
    exact charsVal_natChars (m + 1)

theorem parseNat_fmtNat (n : Nat) : parseNat (fmtNat n) = some n := by
  unfold parseNat
  rw [if_neg (fmtNat_ne_nil n), if_pos (List.all_eq_true.mpr
    (fun c hc => fmtNat_digits n c hc)), charsVal_fmtNat]

theorem foldl_zeros (k : Nat) :
    List.foldl (fun x c => x * 10 + (c.toNat - 48)) 0 (List.replicate k '0') = 0 := by
  induction k with
  | zero => rfl
  | succ j ih =>
    rw [List.replicate_succ, List.foldl_cons]
    have h0 : (0 * 10 + ('0'.toNat - 48)) = 0 := by decide
    rw [h0]
    exact ih

theorem charsVal_zeros_append (k : Nat) (cs : List Char) :
    charsVal (List.replicate k '0' ++ cs) = charsVal cs := by
  unfold charsVal
  rw [List.foldl_append, foldl_zeros]

theorem parseNat_zeros_fmtNat (k n : Nat) :
    parseNat (List.replicate k '0' ++ fmtNat n) = some n := by
  unfold parseNat
  rw [if_neg (List.append_ne_nil_of_right_ne_nil _ (fmtNat_ne_nil n))]
  rw [if_pos]
  · rw [charsVal_zeros_append, charsVal_fmtNat]
  · rw [List.all_eq_true]
    intro c hc
    rcases List.mem_append.mp hc with h | h
    · rw [List.eq_of_mem_replicate h]
      decide
    · exact fmtNat_digits n c h

theorem pad2_eq_zeros (n : Nat) :
    ∃ k, pad2 n = List.replicate k '0' ++ fmtNat n := by
  unfold pad2
  by_cases h : n < 10
  · exact ⟨1, by rw [if_pos h]; rfl⟩
  · exact ⟨0, by rw [if_neg h]; rfl⟩

theorem pad4_eq_zeros (n : Nat) :
    ∃ k, pad4 n = List.replicate k '0' ++ fmtNat n :=
  ⟨4 - (fmtNat n).length, rfl⟩

theorem parseNat_pad2 (n : Nat) : parseNat (pad2 n) = some n := by
  obtain ⟨k, hk⟩ := pad2_eq_zeros n
  rw [hk]
  exact parseNat_zeros_fmtNat k n

theorem parseNat_pad4 (n : Nat) : parseNat (pad4 n) = some n := by
  obtain ⟨k, hk⟩ := pad4_eq_zeros n
  rw [hk]
  exact parseNat_zeros_fmtNat k n

theorem pad2_digits (n : Nat) : ∀ c ∈ pad2 n, c.isDigit = true := by
  obtain ⟨k, hk⟩ := pad2_eq_zeros n
  rw [hk]
  intro c hc
  rcases List.mem_append.mp hc with h | h
  · rw [List.eq_of_mem_replicate h]; decide
  · exact fmtNat_digits n c h

theorem pad4_digits (n : Nat) : ∀ c ∈ pad4 n, c.isDigit = true := by
  obtain ⟨k, hk⟩ := pad4_eq_zeros n
  rw [hk]
  intro c hc
  rcases List.mem_append.mp hc with h | h
  · rw [List.eq_of_mem_replicate h]; decide
  · exact fmtNat_digits n c h

theorem splitOnChar_not_mem (sep : Char) (xs : List Char) (h : sep ∉ xs) :
    splitOnChar sep xs = [xs] := by
  induction xs with
  | nil => rfl
  | cons a t ih =>
    have ha : a ≠ sep := fun hc => h (hc ▸ List.mem_cons_self a t)
    have ht : sep ∉ t := fun hc => h (List.mem_cons_of_mem a hc)
    unfold splitOnChar
    rw [if_neg ha, ih ht]

theorem splitOnChar_cons (sep a : Char) (rest : List Char) :
    splitOnChar sep (a :: rest) =
      if a = sep then [] :: splitOnChar sep rest
      else
        match splitOnChar sep rest with
        | [] => [[a]]
        | f :: fs => (a :: f) :: fs := rfl

theorem splitOnChar_append (sep : Char) (xs ys : List Char) (h : sep ∉ xs) :
    splitOnChar sep (xs ++ sep :: ys) = xs :: splitOnChar sep ys := by
  induction xs with
  | nil =>
    show splitOnChar sep (sep :: ys) = [] :: splitOnChar sep ys
    rw [splitOnChar_cons, if_pos rfl]
  | cons a t ih =>
    have ha : a ≠ sep := fun hc => h (hc ▸ List.mem_cons_self a t)
    have ht : sep ∉ t := fun hc => h (List.mem_cons_of_mem a hc)
    show splitOnChar sep (a :: (t ++ sep :: ys)) = (a :: t) :: splitOnChar sep ys
    rw [splitOnChar_cons, if_neg ha, ih ht]

theorem joinLines_split (ls : List (List Char)) (hne : ls ≠ [])
    (h : ∀ l ∈ ls, '\n' ∉ l) : splitOnChar '\n' (joinLines ls) = ls := by
  induction ls with
  | nil => exact absurd rfl hne
  | cons l rest ih =>
    cases rest with
    | nil =>
      show splitOnChar '\n' l = [l]
      exact splitOnChar_not_mem _ _ (h l (List.mem_cons_self _ _))
    | cons l2 r2 =>
      show splitOnChar '\n' (l ++ '\n' :: joinLines (l2 :: r2)) = l :: (l2 :: r2)
      rw [splitOnChar_append _ _ _ (h l (List.mem_cons_self _ _))]
      rw [ih (by simp) (fun x hx => h x (List.mem_cons_of_mem l hx))]

theorem fmtDate_digit_or_slash (d : Date) :
    ∀ c ∈ fmtDate d, c.isDigit = true ∨ c = '/' := by
  intro c hc
  unfold fmtDate at hc
  simp only [List.mem_append, List.mem_cons] at hc
  rcases hc with (h | h | h) | h | h
  · exact Or.inl (pad2_digits d.day c h)
  · exact Or.inr h
  · exact Or.inl (pad2_digits d.month c h)
  · exact Or.inr h
  · exact Or.inl (pad4_digits d.year c h)

theorem fmtInt_digits (q : Int) (h : 0 ≤ q) :
    ∀ c ∈ fmtInt q, c.isDigit = true := by
  unfold fmtInt
  rw [if_neg (by omega)]
  exact fmtNat_digits q.toNat

theorem fmtInt_ne_nil (q : Int) : fmtInt q ≠ [] := by
  unfold fmtInt
  by_cases h : q < 0
  · rw [if_pos h]; simp
  · rw [if_neg h]; exact fmtNat_ne_nil _

/-- No NA token is a non-empty all-digit field. -/
theorem na_not_digits :
    ∀ v ∈ naValues, ¬(v ≠ [] ∧ ∀ c ∈ v, c.isDigit = true) := by
  decide

/-- No NA token has length nine or more. -/
theorem na_short : ∀ v ∈ naValues, v.length < 9 := by
  decide

theorem naFilter_of_digits (cs : List Char) (hne : cs ≠ [])
    (hd : ∀ c ∈ cs, c.isDigit = true) : naFilter cs = some cs := by
  unfold naFilter
  rw [if_neg]
  intro hmem
  exact na_not_digits cs hmem ⟨hne, hd⟩

theorem pad2_length (n : Nat) : 2 ≤ (pad2 n).length := by
  obtain ⟨k, hk⟩ := pad2_eq_zeros n
  have hfne := fmtNat_ne_nil n
  have hf : 1 ≤ (fmtNat n).length := by
    cases hf : fmtNat n with
    | nil => exact absurd hf hfne
    | cons a t => simp
  unfold pad2 at hk ⊢
  by_cases h : n < 10
  · rw [if_pos h]
    simp only [List.length_cons]
    omega
  · rw [if_neg h]
    unfold fmtNat
    rw [if_neg (by omega)]
    have h10 : 10 ≤ n := by omega
    obtain ⟨m, rfl⟩ : ∃ m, n = m + 10 := ⟨n - 10, by omega⟩
    show 2 ≤ (natCharsAux (m + 10) ((m + 10) / 10) ++
      [Nat.digitChar ((m + 10) % 10)]).length
    rw [List.length_append]
    have hq : (m + 10) / 10 = m / 10 + 1 := by omega
    have : natCharsAux (m + 10) ((m + 10) / 10) ≠ [] := by
      rw [hq]
      cases hm : m + 10 with
      | zero => omega
      | succ j =>
        have hj : 9 ≤ j := by omega
        cases hj2 : j with
        | zero => omega
        | succ j2 =>
          show natCharsAux (j2 + 1) ((m / 10 + 1) / 10) ++
            [Nat.digitChar ((m / 10 + 1) % 10)] ≠ []
          simp
    have : 1 ≤ (natCharsAux (m + 10) ((m + 10) / 10)).length := by
      cases hx : natCharsAux (m + 10) ((m + 10) / 10) with
      | nil => exact absurd hx this
      | cons a t => simp
    simp only [List.length_cons, List.length_nil]
    omega

theorem pad4_length (n : Nat) : 4 ≤ (pad4 n).length := by
  unfold pad4
  rw [List.length_append, List.length_replicate]
  omega

theorem fmtDate_not_na (d : Date) : naFilter (fmtDate d) = some (fmtDate d) := by
  unfold naFilter
  rw [if_neg]
  intro hmem
  have hlen := na_short _ hmem
  unfold fmtDate at hlen
  simp only [List.length_append, List.length_cons] at hlen
  have h1 := pad2_length d.day
  have h2 := pad2_length d.month
  have h3 := pad4_length d.year
  omega

theorem daysInMonth_ge (y m : Nat) : 28 ≤ daysInMonth y m := by
  unfold daysInMonth
  by_cases h2 : m = 2
  · rw [if_pos h2]
    by_cases hl : isLeap y = true
    · rw [if_pos hl]; omega
    · rw [if_neg hl]
  · rw [if_neg h2]
    by_cases h30 : m = 4 ∨ m = 6 ∨ m = 9 ∨ m = 11
    · rw [if_pos h30]; omega
    · rw [if_neg h30]; omega

theorem slash_not_digit : ('/').isDigit = false := by decide

theorem slash_not_mem_pad2 (n : Nat) : '/' ∉ pad2 n := by
  intro h
  have := pad2_digits n _ h
  rw [slash_not_digit] at this
  exact Bool.false_ne_true this

theorem slash_not_mem_pad4 (n : Nat) : '/' ∉ pad4 n := by
  intro h
  have := pad4_digits n _ h
  rw [slash_not_digit] at this
  exact Bool.false_ne_true this

theorem splitOnChar_fmtDate (d : Date) :
    splitOnChar '/' (fmtDate d) = [pad2 d.day, pad2 d.month, pad4 d.year] := by
  unfold fmtDate
  rw [List.append_assoc, List.cons_append]
  rw [splitOnChar_append '/' _ _ (slash_not_mem_pad2 d.day)]
  rw [splitOnChar_append '/' _ _ (slash_not_mem_pad2 d.month)]
  rw [splitOnChar_not_mem '/' _ (slash_not_mem_pad4 d.year)]

theorem parseDlc_fmtDate (d : Date) (hwf : d.wf) (hsafe : dateutilSafe d) :
    parseDlc (fmtDate d) = some d := by
  obtain ⟨hm1, hm2, hd1, hd2, hy1, hy2⟩ := hwf
  unfold parseDlc
  rw [splitOnChar_fmtDate]
  simp only [parseNat_pad2, parseNat_pad4, Option.bind_eq_bind,
    Option.some_bind]
  show dateutilResolve d.day d.month d.year = some d
  unfold dateutilResolve mkDate
  rcases hsafe with hgt | heq
  · rw [if_neg (by omega)]
    rw [if_pos ⟨hm1, hm2, hd1, hd2⟩]
  · have hle : d.day ≤ 12 := heq ▸ hm2
    rw [if_pos ⟨by omega, hle⟩]
    have hmon := daysInMonth_ge d.year d.day
    rw [if_pos ⟨by omega, by omega, by omega, by omega⟩]
    cases d
    simp_all

theorem parseIntField_fmtInt (q : Int) (h : 0 ≤ q) :
    parseIntField (fmtInt q) = some q := by
  have hfi : fmtInt q = fmtNat q.toNat := by
    unfold fmtInt
    rw [if_neg (by omega)]
  rw [hfi]
  cases hf : fmtNat q.toNat with
  | nil => exact absurd hf (fmtNat_ne_nil _)
  | cons c t =>
    have hcd : c.isDigit = true := fmtNat_digits q.toNat c (hf ▸ List.mem_cons_self c t)
    have hcne : c ≠ '-' := by
      intro hcc
      subst hcc
      exact absurd hcd (by decide)
    simp only [parseIntField]
    rw [if_neg hcne, ← hf, parseNat_fmtNat]
    simp [Int.toNat_of_nonneg h]

theorem typecast_row_roundtrip (r : Row) (hq : 0 ≤ r.quantite)
    (hwf : r.dlc.wf) (hsafe : dateutilSafe r.dlc) :
    typecast_row [some r.code.toList, some r.designation.toList,
      some (fmtDate r.dlc), some (fmtInt r.quantite)] = some r.toN := by
  simp only [typecast_row, castDlc, castQuant]
  rw [parseDlc_fmtDate r.dlc hwf hsafe, parseIntField_fmtInt r.quantite hq]
  have hc : String.mk r.code.toList = r.code := rfl
  have hd : String.mk r.designation.toList = r.designation := rfl
  simp [Row.toN, hc, hd]

theorem comma_not_mem_fmtDate (d : Date) : ',' ∉ fmtDate d := by
  intro h
  rcases fmtDate_digit_or_slash d ',' h with hd | hs
  · exact absurd hd (by decide)
  · exact absurd hs (by decide)

theorem comma_not_mem_fmtInt (q : Int) (h : 0 ≤ q) : ',' ∉ fmtInt q := by
  intro hm
  exact absurd (fmtInt_digits q h ',' hm) (by decide)

theorem serializeRow_split (r : Row) (hq : 0 ≤ r.quantite)
    (hc : goodField r.code) (hd : goodField r.designation) :
    splitOnChar ',' (serializeRow r) =
      [r.code.toList, r.designation.toList, fmtDate r.dlc, fmtInt r.quantite] := by
  obtain ⟨-, -, hcch⟩ := hc
  obtain ⟨-, -, hdch⟩ := hd
  have hcc : ',' ∉ r.code.toList := fun hm => (hcch ',' hm).1 rfl
  have hdc : ',' ∉ r.designation.toList := fun hm => (hdch ',' hm).1 rfl
  unfold serializeRow
  rw [List.append_assoc, List.cons_append, List.append_assoc, List.cons_append]
  rw [splitOnChar_append ',' _ _ hcc]
  rw [splitOnChar_append ',' _ _ hdc]
  rw [splitOnChar_append ',' _ _ (comma_not_mem_fmtDate r.dlc)]
  rw [splitOnChar_not_mem ',' _ (comma_not_mem_fmtInt r.quantite hq)]

theorem newline_not_mem_serializeRow (r : Row)
    (hc : goodField r.code) (hd : goodField r.designation) (hq : 0 ≤ r.quantite) :
    '\n' ∉ serializeRow r := by
  obtain ⟨-, -, hcch⟩ := hc
  obtain ⟨-, -, hdch⟩ := hd
  intro hm
  unfold serializeRow at hm
  simp only [List.mem_append, List.mem_cons] at hm
  rcases hm with ((h | h | h) | h | h) | h | h
  · exact (hcch _ h).2.1 rfl
  · exact absurd h (by decide)
  · exact (hdch _ h).2.1 rfl
  · exact absurd h (by decide)
  · rcases fmtDate_digit_or_slash r.dlc _ h with h2 | h2
    · exact absurd h2 (by decide)
    · exact absurd h2 (by decide)
  · exact absurd h (by decide)
  · exact absurd (fmtInt_digits r.quantite hq _ h) (by decide)

theorem serializeRow_ne_nil (r : Row) : serializeRow r ≠ [] := by
  unfold serializeRow
  intro h
  have := congrArg List.length h
  simp only [List.length_append, List.length_cons, List.length_nil] at this
  omega

theorem optMapList_map (f : β → Option γ) (s : α → β) (g : α → γ)
    (l : List α) (h : ∀ a ∈ l, f (s a) = some (g a)) :
    optMapList f (l.map s) = some (l.map g) := by
  induction l with
  | nil => rfl
  | cons a t ih =>
    show (do
      let b ← f (s a)
      let bs ← optMapList f (t.map s)
      some (b :: bs)) = some ((g a) :: t.map g)
    rw [h a (List.mem_cons_self a t)]
    rw [ih (fun x hx => h x (List.mem_cons_of_mem a hx))]
    rfl

theorem quant_nonneg_of_valid (rs : List Row)
    (h : is_valid_data (toDF rs) = "") : ∀ r ∈ rs, 0 ≤ r.quantite := by
  have hq := (valid_parts _ h).2.2.1
  unfold quantOk at hq
  have hcol : getCol? (toDF rs) "quantite" =
      some (.cInt (rs.map Row.quantite)) := by
    simp [toDF, toDFn, getCol?, List.find?_cons, Row.toN, List.map_map,
      Function.comp]
  rw [hcol] at hq
  intro r hr
  have := List.all_eq_true.mp hq (r.quantite) (List.mem_map_of_mem Row.quantite hr)
  simpa using this

theorem comma_mem_serializeRow (r : Row) : ',' ∈ serializeRow r := by
  unfold serializeRow
  simp

theorem naFilter_goodField (s : String) (h : goodField s) :
    naFilter s.toList = some s.toList := by
  unfold naFilter
  rw [if_neg h.2.1]

/-- Claim C9, amended: the parse of a serialized valid row set reproduces the
row set when every text field survives the CSV reader unchanged and every
date survives the dateutil reading.  (Hypotheses: the row set is non-empty
— an empty serialization is the blank-input case; every code and
designation is non-empty, is no NA token of the reader and holds no comma,
newline, carriage return or double quote; every expiry is a well-formed
in-range calendar date whose day is greater than twelve or equal to its
month, since a day of at most twelve in the `DD/MM/YYYY` rendering is read
back as the month.)  Under these conditions `add_products` returns exactly
the original rows, typed and Ok. -/
theorem C9_roundtrip_restricted (rows : List Row)
    (hne : rows ≠ [])
    (hvalid : is_valid_data (toDF rows) = "")
    (hfields : ∀ r ∈ rows, goodField r.code ∧ goodField r.designation)
    (hdates : ∀ r ∈ rows, r.dlc.wf ∧ dateutilSafe r.dlc) :
    add_products (serializeStr rows) = (some (rows.map Row.toN), "") := by
  have hqs := quant_nonneg_of_valid rows hvalid
  have hcomma : ',' ∈ serialize rows := by
    cases rows with
    | nil => exact absurd rfl hne
    | cons r rest =>
      have hr : ',' ∈ serializeRow r := comma_mem_serializeRow r
      show ',' ∈ joinLines (serializeRow r :: rest.map serializeRow)
      cases rest with
      | nil => exact hr
      | cons r2 t2 => exact List.mem_append.mpr (Or.inl hr)
  have hcond : ((serializeStr rows).toList.all pyIsSpace) = false := by
    cases hb : ((serializeStr rows).toList.all pyIsSpace) with
    | false => rfl
    | true =>
      have := List.all_eq_true.mp hb ',' hcomma
      exact absurd this (by decide)
  have hparse : parse_articles (serializeStr rows).toList =
      some (rows.map Row.toN) := by
    show parse_articles (serialize rows) = some (rows.map Row.toN)
    unfold parse_articles serialize
    rw [joinLines_split (rows.map serializeRow)
      (fun hmap => hne (List.map_eq_nil_iff.mp hmap))
      (by
        intro l hl
        obtain ⟨r, hr, rfl⟩ := List.mem_map.mp hl
        obtain ⟨hc, hd⟩ := hfields r hr
        exact newline_not_mem_serializeRow r hc hd (hqs r hr))]
    rw [List.filter_eq_self.mpr (by
      intro l hl
      obtain ⟨r, hr, rfl⟩ := List.mem_map.mp hl
      exact decide_eq_true (serializeRow_ne_nil r))]
    refine optMapList_map _ serializeRow Row.toN rows ?_
    intro r hr
    obtain ⟨hc, hd⟩ := hfields r hr
    obtain ⟨hwf, hsafe⟩ := hdates r hr
    rw [serializeRow_split r (hqs r hr) hc hd]
    show typecast_row
      [naFilter r.code.toList, naFilter r.designation.toList,
        naFilter (fmtDate r.dlc), naFilter (fmtInt r.quantite)] = some r.toN
    rw [naFilter_goodField _ hc, naFilter_goodField _ hd, fmtDate_not_na,
      naFilter_of_digits _ (fmtInt_ne_nil r.quantite)
        (fmtInt_digits r.quantite (hqs r hr))]
    exact typecast_row_roundtrip r (hqs r hr) hwf hsafe
  unfold add_products
  rw [hcond]
  simp only [Bool.false_eq_true, if_false]
  rw [hparse]
  show (if is_valid_data (toDFn (List.map Row.toN rows)) = "" then
    (some (List.map Row.toN rows), "") else (none, parseHelpMsg)) =
    (some (List.map Row.toN rows), "")
  rw [if_pos (show is_valid_data (toDFn (List.map Row.toN rows)) = "" from hvalid)]

/-- Witness for the amended C9 on a concrete valid two-row set with safe
fields and safe dates. -/
theorem C9_roundtrip_restricted_witness :
    add_products (serializeStr [⟨"001", "Widget", ⟨2025, 3, 15⟩, 10⟩,
        ⟨"002", "Gadget", ⟨2025, 4, 28⟩, 5⟩]) =
      (some (([⟨"001", "Widget", ⟨2025, 3, 15⟩, 10⟩,
        ⟨"002", "Gadget", ⟨2025, 4, 28⟩, 5⟩] : List Row).map Row.toN), "") :=
  C9_roundtrip_restricted _ (by decide) (by decide)
    (by decide) (by decide)

end StockMgmt
